import Mathlib

/-!
Shallow embedding of the `theoria` multi-agent core (agents, completion
gateway, LaTeX checker, orchestrator) and verification of the frozen
claims about it.  Python strings are modelled as `List Char` / `String`,
machine floats used only as retry delays as `ℚ`, and the Python
`re` searches used by the code as executable Lean functions with
leftmost-match backtracking semantics.
-/

namespace Theoria

/-! ## Basic character and string helpers -/

/-- Whitespace test matching the characters Python `\s` and `str.strip`
treat as (ASCII) whitespace: space, tab, newline, carriage return,
vertical tab, form feed. -/
def isWs (c : Char) : Bool :=
  c = ' ' || c = '\t' || c = '\n' || c = '\r' || c = '\x0b' || c = '\x0c'

/-- ASCII lower-casing of a single character, modelling Python
`str.lower` on the ASCII range (the only range the handoff patterns and
error-classification keywords use). -/
def asciiLower (c : Char) : Char :=
  if 'A' ≤ c && c ≤ 'Z' then Char.ofNat (c.toNat + 32) else c

/-- Lower-case every character of a character list. -/
def lowerChars (s : List Char) : List Char :=
  s.map asciiLower

/-- Strip leading and trailing whitespace, modelling Python `str.strip()`. -/
def strip (s : List Char) : List Char :=
  ((s.dropWhile isWs).reverse.dropWhile isWs).reverse

/-- Substring containment test on character lists, modelling Python
`needle in haystack`. -/
def containsSub (needle : List Char) : List Char → Bool
  | [] => needle.isPrefixOf []
  | c :: rest => needle.isPrefixOf (c :: rest) || containsSub needle rest

/-! ## A small backtracking pattern engine

The orchestrator handoff patterns use only literals, ordered
alternation, concatenation, greedy `?` and greedy `\s+`.  `pmatch`
returns the list of possible remaining suffixes after a match at the
start of the input, in Python backtracking preference order, so the
head of the list is the suffix the Python `re` engine commits to. -/

inductive Pat where
  | lit (s : List Char)
  | cat (p q : Pat)
  | alt (p q : Pat)
  | opt (p : Pat)
  | wsPlus
deriving Repr

/-- Suffixes reachable from a greedy `\s*` continuation, longest
consumption first (used to give `\s+` its greedy preference order). -/
def wsTail : List Char → List (List Char)
  | [] => [[]]
  | c :: rest => if isWs c then wsTail rest ++ [c :: rest] else [c :: rest]

/-- All suffixes of the input left over after matching the pattern at
position 0, in backtracking preference order. -/
def pmatch : Pat → List Char → List (List Char)
  | .lit s, input => if s.isPrefixOf input then [input.drop s.length] else []
  | .cat p q, input => (pmatch p input).flatMap (fun s => pmatch q s)
  | .alt p q, input => pmatch p input ++ pmatch q input
  | .opt p, input => pmatch p input ++ [input]
  | .wsPlus, input =>
    match input with
    | [] => []
    | c :: rest => if isWs c then wsTail rest else []

/-- Leftmost search, modelling `re.search`: try each start position from
the left; at the first position admitting a match, commit to the
backtracking-preferred match and return its end index (in characters). -/
def searchEndAux (p : Pat) : List Char → Nat → Option Nat
  | input, pos =>
    match pmatch p input with
    | s :: _ => some (pos + (input.length - s.length))
    | [] =>
      match input with
      | [] => none
      | _ :: rest => searchEndAux p rest (pos + 1)

/-- End index of the leftmost match of `p` in `input`, if any. -/
def searchEnd (p : Pat) (input : List Char) : Option Nat :=
  searchEndAux p input 0

/-- Membership-only variant of `searchEnd`. -/
def patMatches (p : Pat) (input : List Char) : Bool :=
  (searchEnd p input).isSome

/-- Substring containment on `String`, via `containsSub`. -/
def containsStr (hay sub : String) : Bool :=
  containsSub sub.toList hay.toList

/-- Lower-casing on `String`, via `asciiLower`. -/
def lowerStr (s : String) : String :=
  (lowerChars s.toList).asString

/-- Chat message record, embedding the `Message` dataclass of
`theoria.providers` (`role` is a free string in the source). -/
structure Msg where
  role : String
  content : String
deriving Repr, DecidableEq

/-! ## Completion gateway (`theoria/providers/__init__.py`)

`LLMClient.complete` loops over at most `MAX_RETRIES` attempts at the
underlying `acompletion` call; each raised exception is classified by
`_classify_error` and either retried (rate limit always, network while
attempts remain, both after a sleep) or re-raised immediately.  The
underlying call is modelled as an oracle from the attempt number to an
outcome; the float delays are modelled exactly as rationals (they are
the dyadic values 1, 2, 4 and the parsed retry-after header). -/

/-- Retry ceiling `MAX_RETRIES = 3` from `theoria/providers`. -/
def MAX_RETRIES : Nat := 3

/-- Initial backoff delay `RETRY_DELAY = 1.0`. -/
def RETRY_DELAY : ℚ := 1

/-- Backoff multiplier `RETRY_MULTIPLIER = 2.0`. -/
def RETRY_MULTIPLIER : ℚ := 2

/-- The observable features of a raised provider exception that
`_classify_error` inspects: its message text, whether it is an instance
of the connection/timeout exception types, and the parsed
`retry-after` response header when one is present (the source parses it
with `float(...)` under `contextlib.suppress(ValueError)`; we model the
already-parsed value). -/
structure ProviderError where
  message : String
  isConnectionType : Bool
  retryAfterHeader : Option ℚ
deriving Repr, DecidableEq

/-- Classified error taxonomy of `theoria.errors` as produced by
`_classify_error`: `RateLimitError`, `NetworkError`,
`AuthenticationError` (with provider identifier) and the generic
`LLMError`. -/
inductive LLMFailure where
  | rateLimitError (retryAfter : Option ℚ)
  | networkError (message : String)
  | authenticationError (provider : String)
  | llmError (message : String)
deriving Repr, DecidableEq

/-- Embedding of `_classify_error`: keyword tests on the lower-cased
message text, an `isinstance` test against the connection/timeout
types, in the source order of the branches. -/
def classifyError (e : ProviderError) : LLMFailure :=
  let s := lowerStr e.message
  if containsStr s "rate" && containsStr s "limit" then
    .rateLimitError e.retryAfterHeader
  else if e.isConnectionType then
    .networkError e.message
  else if containsStr s "connection" || containsStr s "timeout" || containsStr s "network" then
    .networkError e.message
  else if containsStr s "api" && containsStr s "key" then
    .authenticationError "unknown"
  else
    .llmError e.message

/-- Classifications that `LLMClient.complete` never retries:
authentication and the generic completion failure. -/
def LLMFailure.isFailFast : LLMFailure → Bool
  | .authenticationError _ => true
  | .llmError _ => true
  | _ => false

/-- Classifications eligible for a retry: rate limit and network. -/
def LLMFailure.isRetriable : LLMFailure → Bool
  | .rateLimitError _ => true
  | .networkError _ => true
  | _ => false

/-- Observable result of one `LLMClient.complete` call: the returned
content or raised classified error, the number of attempts made at the
underlying call, and the sequence of sleep durations performed. -/
instance : DecidableEq (Except LLMFailure String) := fun x y =>
  match x, y with
  | .ok a, .ok b =>
    if h : a = b then .isTrue (by rw [h]) else .isFalse (by simp [h])
  | .error a, .error b =>
    if h : a = b then .isTrue (by rw [h]) else .isFalse (by simp [h])
  | .ok _, .error _ => .isFalse (by simp)
  | .error _, .ok _ => .isFalse (by simp)

structure CompleteRun where
  result : Except LLMFailure String
  attempts : Nat
  sleeps : List ℚ
deriving Repr, DecidableEq

/-- One underlying-call outcome: the response content or a raised
provider exception. -/
abbrev CompletionOracle := Nat → Except ProviderError String

/-- Sleep duration before a rate-limit retry:
`classified.retry_after or delay` under Python falsiness (`None` and
`0.0` both fall back to the current exponential delay). -/
def rateWait (ra : Option ℚ) (delay : ℚ) : ℚ :=
  match ra with
  | some r => if r = 0 then delay else r
  | none => delay

/-- Loop body of `LLMClient.complete`.  `fuel` counts the remaining
iterations of `for attempt in range(MAX_RETRIES)`; when it reaches zero
the source re-raises `last_error or LLMError("Unknown error after
retries")`. -/
def completeGo (oracle : CompletionOracle) :
    Nat → Nat → ℚ → Option LLMFailure → List ℚ → CompleteRun
  | 0, attempt, _, lastError, sleeps =>
    ⟨.error (lastError.getD (.llmError "Unknown error after retries")), attempt, sleeps⟩
  | fuel + 1, attempt, delay, lastError, sleeps =>
    match oracle attempt with
    | .ok content => ⟨.ok content, attempt + 1, sleeps⟩
    | .error e =>
      match classifyError e with
      | .rateLimitError ra =>
        completeGo oracle fuel (attempt + 1) (delay * RETRY_MULTIPLIER)
          (some (.rateLimitError ra)) (sleeps ++ [rateWait ra delay])
      | .networkError m =>
        if attempt + 1 < MAX_RETRIES then
          completeGo oracle fuel (attempt + 1) (delay * RETRY_MULTIPLIER)
            (some (.networkError m)) (sleeps ++ [delay])
        else
          ⟨.error (.networkError m), attempt + 1, sleeps⟩
      | .authenticationError p => ⟨.error (.authenticationError p), attempt + 1, sleeps⟩
      | .llmError m => ⟨.error (.llmError m), attempt + 1, sleeps⟩

/-- Embedding of `LLMClient.complete` over an oracle for the underlying
`acompletion` call: the sleep before a rate-limit retry is
`classified.retry_after or delay` (Python falsiness treating `0.0` like
`None`, hence `rateWait`); a network retry sleeps the current delay;
authentication and generic classifications are raised immediately. -/
def llmComplete (oracle : CompletionOracle) : CompleteRun :=
  completeGo oracle MAX_RETRIES 0 RETRY_DELAY none []

/-! ## Dialogue agent (`theoria/agents/theoretikos.py`) -/

/-- Embedding of `DialogueState`.  The phase literal type
`clarify | challenge | synthesize | end` is kept as the string values
the source compares against. -/
structure DialogueState where
  messages : List Msg
  phase : String
  thesis : String
  objections : List String
  refinements : List String
deriving Repr, DecidableEq

/-- System prompt of the dialogue agent, a function of the phase name as
in `SYSTEM_PROMPT.format(phase=phase)`. -/
def theoretikosSystemPrompt (phase : String) : String :=
  "You are Theoretikos, a Socratic philosophical dialogue partner.\n\nYour role:\n- Help the user clarify, examine, and refine their arguments\n- Ask probing questions to uncover assumptions\n- Present counter-arguments and objections\n- Never simply agree - always push for deeper thinking\n- Guide toward well-supported conclusions with traceable reasoning\n\nCurrent phase: "
    ++ phase
    ++ "\n- clarify: Help user articulate their thesis clearly\n- challenge: Present objections and counter-arguments\n- synthesize: Help integrate insights into refined position\n\nRespond in the user\x27s language. Be rigorous but not hostile."

/-- Embedding of `Theoretikos._route_from_clarify`: forced `end` wins,
then Python truthiness of `thesis` (non-empty string) selects
`challenge`, else the `clarify` self-loop. -/
def route_from_clarify (st : DialogueState) : String :=
  if st.phase = "end" then "end"
  else if st.thesis ≠ "" then "challenge"
  else "clarify"

/-- Embedding of `Theoretikos._route_from_challenge`: forced `end`
wins, then `synthesize` once at least 3 objections exist, else the
`challenge` loop. -/
def route_from_challenge (st : DialogueState) : String :=
  if st.phase = "end" then "end"
  else if 3 ≤ st.objections.length then "synthesize"
  else "challenge"

/-- Embedding of `Theoretikos._route_from_synthesize`. -/
def route_from_synthesize (st : DialogueState) : String :=
  if st.phase = "end" then "end" else "clarify"

/-- Embedding of `Theoretikos.stream_chat` up to its suspension on the
gateway stream: returns the state as left after the call body ran (the
body only rebinds a local `messages` name and never writes to the
passed state) together with the message list sent to the gateway. -/
def streamChatCall (userInput : String) (st : DialogueState) : DialogueState × List Msg :=
  let messages := st.messages ++ [⟨"user", userInput⟩]
  (st, ⟨"system", theoretikosSystemPrompt st.phase⟩ :: messages)

/-! ## Literature-search agent (`theoria/agents/bibliographos.py`) -/

/-- Embedding of the `Citation` TypedDict. -/
structure Citation where
  key : String
  type : String
  title : String
  authors : List String
  year : String
  source : String
  doi : Option String
  url : Option String
  abstract : Option String
deriving Repr, DecidableEq

/-- Embedding of `SearchState`.  The raw `search_results` dictionaries
are modelled as string-keyed association lists; no claim inspects their
contents. -/
structure SearchState where
  messages : List Msg
  query : String
  phase : String
  search_results : List (List (String × String))
  citations : List Citation
  bib_entries : List String
deriving Repr, DecidableEq

/-- System prompt of the search agent as a function of the phase. -/
def bibliographosSystemPrompt (phase : String) : String :=
  "You are Bibliographos, a scholarly research assistant specializing in literature search, citation management, and BibTeX generation.\n\nYour responsibilities:\n- Search for relevant academic sources based on user queries\n- Extract citation metadata from sources\n- Generate properly formatted BibTeX entries\n- Validate citation completeness and accuracy\n- Maintain citation traceability - every claim needs a source\n\nCurrent phase: "
    ++ phase
    ++ "\n- search: Find relevant academic sources\n- extract: Extract citation metadata from found sources\n- validate: Verify citation completeness and format BibTeX\n\nRespond in the user\x27s language. Be thorough but concise."

/-- Python truthiness of an optional string field, as used by
`citation.get("doi")` tests: present and non-empty. -/
def truthy : Option String → Bool
  | some s => s ≠ ""
  | none => false

/-- Embedding of `Bibliographos.format_bibtex`: author names joined
with " and ", optional doi/url/abstract parts gated on Python
truthiness, abstract sliced to its first 500 characters, rendered
through `BIBTEX_TEMPLATE`. -/
def formatBibtex (c : Citation) : String :=
  let authors := String.intercalate " and " c.authors
  let optionalParts : List String :=
    (if truthy c.doi then ["doi = \x7b" ++ c.doi.getD "" ++ "\x7d"] else [])
      ++ (if truthy c.url then ["url = \x7b" ++ c.url.getD "" ++ "\x7d"] else [])
      ++ (if truthy c.abstract then
            ["abstract = \x7b" ++ ((c.abstract.getD "").toList.take 500).asString ++ "\x7d"]
          else [])
  let optionalFields := if optionalParts ≠ [] then String.intercalate ",\n  " optionalParts else ""
  "@" ++ c.type ++ "\x7b" ++ c.key ++ ",\n  author = \x7b" ++ authors
    ++ "\x7d,\n  title = \x7b" ++ c.title ++ "\x7d,\n  year = \x7b" ++ c.year
    ++ "\x7d,\n  " ++ optionalFields ++ "\n\x7d"

/-- Embedding of `Bibliographos.stream_search` up to its suspension on
the gateway stream: the body executes the write
`state["query"] = query` on the passed state before streaming; the
local `messages` rebinding does not touch the state.  Returns the state
as mutated plus the message list sent to the gateway. -/
def streamSearchCall (query : String) (st : SearchState) : SearchState × List Msg :=
  let st1 : SearchState := { st with query := query }
  let messages := st1.messages ++ [⟨"user", query⟩]
  let searchPrompt :=
    "Search query: " ++ query
      ++ "\n\nFind and cite relevant academic sources for this research topic."
  (st1, ⟨"system", bibliographosSystemPrompt st1.phase⟩ :: messages ++ [⟨"user", searchPrompt⟩])

/-! ## Document-editing agent (`theoria/agents/graphos.py`) -/

/-- Embedding of the `EditOperation` TypedDict (declared in the source
but not consumed by any phase body). -/
structure EditOperation where
  type : String
  line_start : Int
  line_end : Option Int
  content : Option String
deriving Repr, DecidableEq

/-- Embedding of `LatexState`. -/
structure LatexState where
  messages : List Msg
  file_path : String
  content : String
  phase : String
  edits : List EditOperation
  errors : List String
deriving Repr, DecidableEq

/-- System prompt of the editing agent as a function of the phase. -/
def graphosSystemPrompt (phase : String) : String :=
  "You are Graphos, a LaTeX editing assistant specializing in academic document preparation.\n\nYour responsibilities:\n- Edit LaTeX documents based on user instructions\n- Maintain document structure and formatting consistency\n- Repair common LaTeX syntax errors\n- Preserve existing style and conventions\n- Handle citations, references, and cross-references properly\n\nCurrent phase: "
    ++ phase
    ++ "\n- analyze: Understand the document structure and user request\n- edit: Make requested changes to the document\n- repair: Fix syntax errors and validate structure\n\nRespond in the user\x27s language. Preserve document integrity."

/-- Leftmost match of the first LaTeX error pattern
`\begin{([^}]+)\}(?![\s\S]*\end{\1})`: an environment opened by
`\begin{NAME}` (NAME a maximal non-empty run of non-brace characters
followed by a closing brace, the greedy `[^}]+`) such that no
`\end{NAME}` occurs anywhere in the rest of the content (the negative
lookahead).  Returns the captured NAME of the leftmost such opening. -/
def findUnclosedEnv : List Char → Option (List Char)
  | [] => none
  | c :: rest =>
    (if "\\begin\x7b".toList.isPrefixOf (c :: rest) then
      let after := (c :: rest).drop 7
      let name := after.takeWhile (fun ch => ch ≠ '\x7d')
      let post := after.drop name.length
      if name ≠ [] ∧ post.head? = some '\x7d' then
        if containsSub ("\\end\x7b".toList ++ name ++ ['\x7d']) (post.drop 1) then
          none
        else
          some name
      else none
    else none).orElse (fun _ => findUnclosedEnv rest)

/-- Lookahead helper for the math-mode pattern: is there a later
unescaped dollar on the same line (the `.*(?<!\\)\$` part, `.` not
matching newline)?  `prev` is the character preceding the current scan
position in the original content. -/
def laterUnescapedDollar : Char → List Char → Bool
  | _, [] => false
  | prev, c :: rest =>
    if c = '\n' then false
    else if c = '$' ∧ prev ≠ '\\' then true
    else laterUnescapedDollar c rest

/-- Leftmost-match test for the second pattern
`(?<!\\)\$(?!.*(?<!\\)\$)`: an unescaped `$` with no later unescaped
`$` on the same line.  `prev` threads the preceding character for the
negative lookbehind (`none` at the start of the content). -/
def findUnclosedMathAux : Option Char → List Char → Bool
  | _, [] => false
  | prev, c :: rest =>
    if c = '$' ∧ prev ≠ some '\\' ∧ ¬laterUnescapedDollar '$' rest then true
    else findUnclosedMathAux (some c) rest

/-- Match test for the unclosed-math pattern on whole content. -/
def findUnclosedMath (s : List Char) : Bool :=
  findUnclosedMathAux none s

/-- Lookahead helper for the third pattern: does `[^{}]*\}` match here,
i.e. is the first brace character at or after this position a closing
brace? -/
def nextBraceIsClose : List Char → Bool
  | [] => false
  | c :: rest =>
    if c = '\x7d' then true
    else if c = '\x7b' then false
    else nextBraceIsClose rest

/-- Match test for the third pattern `\{(?![^{}]*\})`: an opening brace
not followed (before any other brace) by a closing brace. -/
def findUnclosedBrace : List Char → Bool
  | [] => false
  | c :: rest =>
    if c = '\x7b' ∧ ¬nextBraceIsClose rest then true
    else findUnclosedBrace rest

/-- Match test for the empty-argument command patterns `\cite\{\s*\}`
and `\ref\{\s*\}`: the literal command opener followed by whitespace
only up to a closing brace. -/
def findEmptyCmd (opener : List Char) : List Char → Bool
  | [] => false
  | c :: rest =>
    (opener.isPrefixOf (c :: rest)
        && (((c :: rest).drop opener.length).dropWhile isWs).head? = some '\x7d')
      || findEmptyCmd opener rest

/-- Embedding of the `LATEX_ERROR_PATTERNS` table: each entry is the
search for one pattern combined with its message template (the first
pattern formats its captured group into `Unclosed environment: {0}`,
the others carry constant messages). -/
def LATEX_ERROR_PATTERNS : List (List Char → Option String) :=
  [ fun cs => (findUnclosedEnv cs).map (fun n => "Unclosed environment: " ++ n.asString),
    fun cs => if findUnclosedMath cs then some "Unclosed math mode" else none,
    fun cs => if findUnclosedBrace cs then some "Unclosed brace" else none,
    fun cs => if findEmptyCmd "\\cite\x7b".toList cs then some "Empty citation" else none,
    fun cs => if findEmptyCmd "\\ref\x7b".toList cs then some "Empty reference" else none ]

/-- Embedding of `Graphos._check_syntax`: loop over
`LATEX_ERROR_PATTERNS`, appending one formatted diagnostic per pattern
that has a match (`re.search` yields at most one match object). -/
def checkSyntaxErrors (content : String) : List String :=
  LATEX_ERROR_PATTERNS.filterMap (fun check => check content.toList)

/-- Embedding of `Graphos._route_from_analyze`. -/
def route_from_analyze (st : LatexState) : String :=
  if st.phase = "end" then "end"
  else if st.errors ≠ [] then "repair"
  else "edit"

/-- Embedding of `Graphos._route_from_edit`. -/
def route_from_edit (st : LatexState) : String :=
  if st.phase = "end" then "end"
  else if st.errors ≠ [] then "repair"
  else "end"

/-- Embedding of `Graphos._route_from_repair`: the state argument is
ignored (`_state`) and the router is the constant `end`. -/
def route_from_repair (_st : LatexState) : String :=
  "end"

/-- First index at which `needle` starts inside the list, if any. -/
def findSubIdx (needle : List Char) : List Char → Option Nat
  | [] => if needle = [] then some 0 else none
  | c :: rest =>
    if needle.isPrefixOf (c :: rest) then some 0
    else (findSubIdx needle rest).map (· + 1)

/-- Body of the first fenced code block opened by three backticks, the
given tag and a newline, up to the closing newline-plus-fence (the
non-greedy `([\s\S]*?)` of `_extract_latex`). -/
def extractFence (tag : String) (s : List Char) : Option (List Char) :=
  let opener := "```".toList ++ tag.toList ++ ['\n']
  (findSubIdx opener s).bind (fun i =>
    let afterOpen := s.drop (i + opener.length)
    (findSubIdx "\n```".toList afterOpen).map (fun j => afterOpen.take j))

/-- Embedding of `Graphos._extract_latex`: first `latex`-tagged fenced
block, else `tex`-tagged, else untagged, else the raw response. -/
def extractLatex (response : String) : String :=
  match extractFence "latex" response.toList with
  | some body => body.asString
  | none =>
    match extractFence "tex" response.toList with
    | some body => body.asString
    | none =>
      match extractFence "" response.toList with
      | some body => body.asString
      | none => response

/-- Merged state after `Graphos._repair_node` ran with the given model
response: the update map `{messages, content, errors, phase: "end"}`
replaces those keys of the state. -/
def graphosRepairNodeRun (st : LatexState) (response : String) : LatexState :=
  let repaired := extractLatex response
  { st with
    messages := st.messages ++ [⟨"assistant", response⟩],
    content := repaired,
    errors := checkSyntaxErrors repaired,
    phase := "end" }

/-- Body of the non-greedy environment block of the `re.sub` pattern in
`Graphos.repair`: the shortest stretch after an opening up to the next
`\begin{` opener or the end of the content (the `(?=\\begin\{|\Z)`
lookahead). -/
def bodyUpToBegin : List Char → List Char
  | [] => []
  | c :: rest =>
    if "\\begin\x7b".toList.isPrefixOf (c :: rest) then []
    else c :: bodyUpToBegin rest

/-- One replacement step of the `re.sub` in `Graphos.repair` at the
current position: when `\begin{NAME}` (greedy `[^}]+` name) matches
here, returns the text the replacement lambda emits for the match and
the remainder of the content after the match. -/
def tryBeginRepair (s : List Char) : Option (List Char × List Char) :=
  if "\\begin\x7b".toList.isPrefixOf s then
    let after := s.drop 7
    let name := after.takeWhile (fun ch => ch ≠ '\x7d')
    let post := after.drop name.length
    if name ≠ [] ∧ post.head? = some '\x7d' then
      let body := bodyUpToBegin (post.drop 1)
      let remainder := (post.drop 1).drop body.length
      let matched := "\\begin\x7b".toList ++ name ++ ['\x7d'] ++ body
      if containsSub ("\\end\x7b".toList ++ name ++ ['\x7d']) body then
        some (matched, remainder)
      else
        some (matched ++ "\\end\x7b".toList ++ name ++ ['\x7d'] ++ ['\n'], remainder)
    else none
  else none

/-- Left-to-right non-overlapping scan of the `re.sub`; `fuel` bounds
the recursion by the content length (every match consumes at least one
character). -/
def repairSubGo : Nat → List Char → List Char
  | 0, s => s
  | fuel + 1, s =>
    match tryBeginRepair s with
    | some (emitted, remainder) => emitted ++ repairSubGo fuel remainder
    | none =>
      match s with
      | [] => []
      | c :: rest => c :: repairSubGo fuel rest

/-- Embedding of the non-graph `Graphos.repair(content)` utility: if
the checker finds no errors return the content and an empty list
unchanged; otherwise apply the environment-closing substitution and
re-check. -/
def graphosRepair (content : String) : String × List String :=
  let errors := checkSyntaxErrors content
  if errors = [] then (content, [])
  else
    let repaired := (repairSubGo content.toList.length content.toList).asString
    (repaired, checkSyntaxErrors repaired)

/-- Embedding of `Graphos.stream_edit` up to its suspension on the
gateway stream: it takes no agent state at all (only the instruction
and optional content) and sends a two-message prompt; a falsy content
is replaced by the empty string. -/
def streamEditCall (instruction : String) (content : Option String) : List Msg :=
  let content := match content with
    | some s => if s = "" then "" else s
    | none => ""
  [⟨"system", graphosSystemPrompt "edit"⟩,
   ⟨"user", instruction ++ "\n\nDocument:\n```latex\n" ++ content
      ++ "\n```\n\nProvide the edited LaTeX."⟩]

/-! ## Orchestrator (`theoria/agents/orchestrator.py`)

The graph execution itself is supplied by the external `langgraph`
dependency; its step/merge behaviour is modelled from the spec of the
Phase-Graph Executor: a phase body receives the running state by
reference (its in-place writes are visible, spec section 5) and the
partial update map it returns replaces the corresponding keys (spec
section 4.2).  The two sub-agent entry points the orchestrator
delegates to (`Theoretikos.chat`, `Bibliographos.search`) perform model
calls and are passed as oracles. -/

/-- Literal pattern. -/
def plit (s : String) : Pat := .lit s.toList

/-- Literal pattern with an optional plural `s?`. -/
def plitS (s : String) : Pat := .cat (plit s) (.opt (plit "s"))

/-- Pattern 1 of `HANDOFF_PATTERNS`:
`この主張の根拠を(探して|調べて|検索して)`. -/
def handoffPat0 : Pat :=
  .cat (plit "この主張の根拠を") (.alt (plit "探して") (.alt (plit "調べて") (plit "検索して")))

/-- Pattern 2: `(文献|論文|ソース|出典)を(探して|調べて|検索して)`. -/
def handoffPat1 : Pat :=
  .cat (.alt (plit "文献") (.alt (plit "論文") (.alt (plit "ソース") (plit "出典"))))
    (.cat (plit "を") (.alt (plit "探して") (.alt (plit "調べて") (plit "検索して"))))

/-- Pattern 3: `(evidence|sources?|citations?|references?)\s+(for|about|on)`. -/
def handoffPat2 : Pat :=
  .cat (.alt (plit "evidence") (.alt (plitS "source") (.alt (plitS "citation") (plitS "reference"))))
    (.cat .wsPlus (.alt (plit "for") (.alt (plit "about") (plit "on"))))

/-- Pattern 4: `find\s+(papers?|sources?|evidence|literature)`. -/
def handoffPat3 : Pat :=
  .cat (plit "find")
    (.cat .wsPlus (.alt (plitS "paper") (.alt (plitS "source") (.alt (plit "evidence") (plit "literature")))))

/-- Pattern 5: `search\s+(for\s+)?(literature|papers?|sources?)`. -/
def handoffPat4 : Pat :=
  .cat (plit "search")
    (.cat .wsPlus
      (.cat (.opt (.cat (plit "for") .wsPlus))
        (.alt (plit "literature") (.alt (plitS "paper") (plitS "source")))))

/-- The ordered `HANDOFF_PATTERNS` list.  All alphabetic literals are
lower case, so searching the lower-cased content with the
case-sensitive engine models the source `re.IGNORECASE` searches
(per-character lower-casing preserves positions). -/
def HANDOFF_PATTERNS : List Pat :=
  [handoffPat0, handoffPat1, handoffPat2, handoffPat3, handoffPat4]

/-- Does any handoff pattern match the lower-cased content (the
`for pattern in HANDOFF_PATTERNS: if re.search(...)` test of
`_route_node`)? -/
def handoffMatches (content : String) : Bool :=
  HANDOFF_PATTERNS.any (fun p => patMatches p (lowerChars content.toList))

/-- Loop of `Orchestrator._extract_search_query` over the pattern list:
for the first pattern whose match is followed by a non-empty stripped
suffix of the original message, that suffix capped at 200 characters;
patterns that match with an empty suffix fall through to the next
pattern. -/
def extractQueryGo (orig lowered : List Char) : List Pat → Option (List Char)
  | [] => none
  | p :: ps =>
    match searchEnd p lowered with
    | some e =>
      let after := strip (orig.drop e)
      if after ≠ [] then some (after.take 200) else extractQueryGo orig lowered ps
    | none => extractQueryGo orig lowered ps

/-- Embedding of `Orchestrator._extract_search_query`. -/
def extractSearchQuery (message : String) : String :=
  let orig := message.toList
  match extractQueryGo orig (lowerChars orig) HANDOFF_PATTERNS with
  | some q => q.asString
  | none => (orig.take 200).asString

/-- Embedding of `OrchestratorState` (the composite state). -/
structure OrchestratorState where
  messages : List Msg
  active_agent : String
  dialogue_state : DialogueState
  search_state : SearchState
  pending_search : Option String
  search_results : List String
deriving Repr, DecidableEq

/-- Update map returned by `_route_node`: the new `active_agent` and,
only on a handoff, a `pending_search` entry. -/
structure RouteUpdate where
  active_agent : String
  pending_search : Option String
deriving Repr, DecidableEq

/-- Embedding of `Orchestrator._route_node`: empty history or a
non-user last message defaults to the dialogue agent; otherwise the
lower-cased content is tested against the ordered handoff patterns and
a match hands off to the search agent with the extracted query. -/
def routeNode (st : OrchestratorState) : RouteUpdate :=
  match st.messages.getLast? with
  | none => ⟨"theoretikos", none⟩
  | some last =>
    if last.role ≠ "user" then ⟨"theoretikos", none⟩
    else if handoffMatches last.content then
      ⟨"bibliographos", some (extractSearchQuery last.content)⟩
    else ⟨"theoretikos", none⟩

/-- Embedding of `Orchestrator._decide_route`. -/
def decideRoute (st : OrchestratorState) : String :=
  if st.active_agent = "bibliographos" then "bibliographos"
  else if st.active_agent = "theoretikos" then "theoretikos"
  else "end"

/-- Header the dialogue node inserts between the user turn and the
joined search results. -/
def contextHeader : String :=
  "\n\n[Available sources from literature search]:\n"

/-- The `user_input` value `_theoretikos_node` delegates to
`Theoretikos.chat`: `none` when the node no-ops (no messages, or a
non-user last message), otherwise the last user content, with the
joined pending search results appended after it when any exist. -/
def theoretikosDelegatedInput (st : OrchestratorState) : Option String :=
  match st.messages.getLast? with
  | none => none
  | some last =>
    if last.role ≠ "user" then none
    else if st.search_results ≠ [] then
      some (last.content ++ contextHeader ++ String.intercalate "\n" st.search_results)
    else some last.content

/-- Merged orchestrator state after `_theoretikos_node` ran, with
`Theoretikos.chat` as an oracle: the node clears `search_results` in
place when it consumed them, delegates the (possibly augmented) user
turn, and appends the sub-agent reply to the orchestrator history. -/
def theoretikosNodeRun (chatFn : String → DialogueState → DialogueState)
    (st : OrchestratorState) : OrchestratorState :=
  match theoretikosDelegatedInput st with
  | none => st
  | some input =>
    let st1 := if st.search_results ≠ [] then { st with search_results := [] } else st
    let newDS := chatFn input st.dialogue_state
    match newDS.messages.getLast? with
    | some assistantMsg =>
      { st1 with messages := st1.messages ++ [assistantMsg], dialogue_state := newDS }
    | none => { st1 with dialogue_state := newDS }

/-- Merged orchestrator state after `_bibliographos_node` ran, with
`Bibliographos.search` as an oracle: a falsy pending query is a silent
no-op; otherwise the sub-agent result replaces `search_state`, its
`bib_entries` become `search_results` and the pending query clears. -/
def bibliographosNodeRun (searchFn : String → SearchState → SearchState)
    (st : OrchestratorState) : OrchestratorState :=
  match st.pending_search with
  | none => st
  | some q =>
    if q = "" then st
    else
      let newSS := searchFn q st.search_state
      { st with
        search_state := newSS,
        search_results := newSS.bib_entries,
        pending_search := none }

/-- Merged orchestrator state after `_integrate_node` ran: appends a
synthetic summary message when search results exist. -/
def integrateNodeRun (st : OrchestratorState) : OrchestratorState :=
  if st.search_results = [] then st
  else
    { st with
      messages := st.messages
        ++ [⟨"assistant",
             "[Bibliographos found " ++ toString st.search_results.length
               ++ " relevant source(s). The sources have been integrated into the discussion context.]"⟩] }

/-- Embedding of `Orchestrator.chat`: append the user turn, run the
phase graph (route, then one of the dialogue path ending the run or the
search path through integrate) and return the final merged state. -/
def orchestratorChat (chatFn : String → DialogueState → DialogueState)
    (searchFn : String → SearchState → SearchState)
    (userInput : String) (st : OrchestratorState) : OrchestratorState :=
  let st1 := { st with messages := st.messages ++ [⟨"user", userInput⟩] }
  let ru := routeNode st1
  let st2 := { st1 with
    active_agent := ru.active_agent,
    pending_search := match ru.pending_search with
      | some q => some q
      | none => st1.pending_search }
  match decideRoute st2 with
  | "theoretikos" => theoretikosNodeRun chatFn st2
  | "bibliographos" => integrateNodeRun (bibliographosNodeRun searchFn st2)
  | _ => st2

/-! ## Default states (the `_default_state()` constructors) -/

/-- Embedding of `theoretikos._default_state()`. -/
def defaultDialogueState : DialogueState :=
  ⟨[], "clarify", "", [], []⟩

/-- Embedding of `bibliographos._default_state()`. -/
def defaultSearchState : SearchState :=
  ⟨[], "", "search", [], [], []⟩

/-- Embedding of `graphos._default_state()`. -/
def defaultLatexState : LatexState :=
  ⟨[], "", "", "analyze", [], []⟩

/-- Embedding of `orchestrator._default_state()`. -/
def defaultOrchestratorState : OrchestratorState :=
  ⟨[], "theoretikos", defaultDialogueState, defaultSearchState, none, []⟩

/-! ## Spec-side definitions

These two definitions transcribe claim wording, not source code; they
exist to be compared against the embedded functions. -/

/-- Search query as described by claim C1 taken literally: the first
pattern (in list order) with a match determines the query — the
trimmed text following that match capped at 200 characters, or the
whole message capped at 200 characters when that match leaves no
suffix. -/
def claimFirstMatchPending (message : String) : String :=
  let orig := message.toList
  let lowered := lowerChars orig
  match HANDOFF_PATTERNS.findSome? (fun p => searchEnd p lowered) with
  | some e =>
    let after := strip (orig.drop e)
    if after ≠ [] then (after.take 200).asString else (orig.take 200).asString
  | none => (orig.take 200).asString

/-- Search query as described by the amended claim C1: the trimmed text
following the match of the first pattern (in list order) whose match is
followed by a non-empty trimmed suffix, capped at 200 characters; the
whole message capped at 200 characters when no pattern match leaves a
non-empty suffix. -/
def amendedPendingSearch (message : String) : String :=
  let orig := message.toList
  let lowered := lowerChars orig
  match HANDOFF_PATTERNS.findSome? (fun p =>
      (searchEnd p lowered).bind (fun e =>
        let after := strip (orig.drop e)
        if after ≠ [] then some after else none)) with
  | some after => (after.take 200).asString
  | none => (orig.take 200).asString

/-! ## Theorems -/

/-- C5: for every DialogueState whose phase is not `end`, the challenge
router returns `synthesize` (never `challenge`) when at least 3
objections exist, and `challenge` when fewer than 3 exist. -/
theorem challenge_router_spec (st : DialogueState) (h : st.phase ≠ "end") :
    (3 ≤ st.objections.length →
      route_from_challenge st = "synthesize" ∧ route_from_challenge st ≠ "challenge")
    ∧ (st.objections.length < 3 → route_from_challenge st = "challenge") := by
  unfold route_from_challenge
  rw [if_neg h]
  constructor
  · intro h3
    rw [if_pos h3]
    exact ⟨rfl, by decide⟩
  · intro h3
    rw [if_neg (by omega)]

/-- Witness for C5 at concrete dialogue states with 3 and with 1
objection. -/
theorem challenge_router_spec_witness :
    route_from_challenge ⟨[], "challenge", "t", ["o1", "o2", "o3"], []⟩ = "synthesize"
    ∧ route_from_challenge ⟨[], "challenge", "t", ["o1"], []⟩ = "challenge" :=
  ⟨((challenge_router_spec ⟨[], "challenge", "t", ["o1", "o2", "o3"], []⟩ (by decide)).1
      (by decide)).1,
   (challenge_router_spec ⟨[], "challenge", "t", ["o1"], []⟩ (by decide)).2 (by decide)⟩

/-- C6: for every DialogueState whose phase is not `end`, the clarify
router self-loops on `clarify` while the thesis is empty and returns
`challenge` once the thesis is non-empty. -/
theorem clarify_router_spec (st : DialogueState) (h : st.phase ≠ "end") :
    (st.thesis = "" → route_from_clarify st = "clarify")
    ∧ (st.thesis ≠ "" → route_from_clarify st = "challenge") := by
  unfold route_from_clarify
  rw [if_neg h]
  constructor
  · intro ht
    rw [if_neg (by simp [ht])]
  · intro ht
    rw [if_pos ht]

/-- Witness for C6 at concrete dialogue states with empty and with
non-empty thesis. -/
theorem clarify_router_spec_witness :
    route_from_clarify ⟨[], "clarify", "", [], []⟩ = "clarify"
    ∧ route_from_clarify ⟨[], "clarify", "some thesis", [], []⟩ = "challenge" :=
  ⟨(clarify_router_spec ⟨[], "clarify", "", [], []⟩ (by decide)).1 rfl,
   (clarify_router_spec ⟨[], "clarify", "some thesis", [], []⟩ (by decide)).2 (by decide)⟩

/-- C7: the repair router returns `end` on every state — in particular
on the merged state after the repair phase body ran with any model
response and any number of remaining diagnostics — and never `edit` or
`repair`. -/
theorem repair_router_end (st : LatexState) (response : String) :
    route_from_repair st = "end"
    ∧ route_from_repair (graphosRepairNodeRun st response) = "end"
    ∧ route_from_repair st ≠ "edit"
    ∧ route_from_repair st ≠ "repair" := by
  refine ⟨rfl, rfl, by unfold route_from_repair; decide, by unfold route_from_repair; decide⟩

/-- C10: when the syntax checker reports no diagnostics, the non-graph
repair utility returns the content unchanged with an empty diagnostics
list. -/
theorem graphosRepair_identity (content : String)
    (h : checkSyntaxErrors content = []) :
    graphosRepair content = (content, []) := by
  simp [graphosRepair, h]

/-- Witness for C10 on an error-free document. -/
theorem graphosRepair_identity_witness :
    graphosRepair "Hello \\cite\x7bkey\x7d world" = ("Hello \\cite\x7bkey\x7d world", []) :=
  graphosRepair_identity _ (by decide)

/-- C4 (amended): the streaming entry points leave every field of the
passed state unchanged, except that `stream_search` overwrites `query`
with the query argument; `stream_chat` leaves the dialogue state
entirely unchanged (and `stream_edit` receives no agent state at
all). -/
theorem stream_state_effects (q : String) (st : SearchState)
    (u : String) (dst : DialogueState) :
    (streamSearchCall q st).1.messages = st.messages
    ∧ (streamSearchCall q st).1.phase = st.phase
    ∧ (streamSearchCall q st).1.search_results = st.search_results
    ∧ (streamSearchCall q st).1.citations = st.citations
    ∧ (streamSearchCall q st).1.bib_entries = st.bib_entries
    ∧ (streamSearchCall q st).1.query = q
    ∧ (streamChatCall u dst).1 = dst := by
  refine ⟨rfl, rfl, rfl, rfl, rfl, rfl, rfl⟩

/-- Counterexample for C4 as stated: consuming `stream_search` writes
the `query` field of the passed state — here the passed state's query
"old query" is overwritten with "new query", so the state is not left
unchanged. -/
theorem stream_search_writes_query :
    (streamSearchCall "new query" { defaultSearchState with query := "old query" }).1.query
        = "new query"
    ∧ (streamSearchCall "new query" { defaultSearchState with query := "old query" }).1
        ≠ { defaultSearchState with query := "old query" } := by
  refine ⟨rfl, by decide⟩

/-- Rewriting `filterMap` over a cons cell through `Option.toList`. -/
theorem filterMap_cons_toList {α β : Type} (f : α → Option β) (a : α) (l : List α) :
    List.filterMap f (a :: l) = (f a).toList ++ List.filterMap f l := by
  cases h : f a <;> simp [List.filterMap_cons, h]

/-- C9: the syntax checker emits at most one diagnostic per error
pattern — at most 5 in total, decomposing as one optional diagnostic
for each of unclosed environment, unclosed math mode, unclosed brace,
empty citation and empty reference, in that fixed order — for every
content string. -/
theorem checker_one_diag_per_pattern (content : String) :
    (checkSyntaxErrors content).length ≤ 5
    ∧ ∃ o1 o2 o3 o4 o5 : Option String,
        checkSyntaxErrors content
          = o1.toList ++ o2.toList ++ o3.toList ++ o4.toList ++ o5.toList
        ∧ (∀ s ∈ o1.toList, ∃ envName, s = "Unclosed environment: " ++ envName)
        ∧ (∀ s ∈ o2.toList, s = "Unclosed math mode")
        ∧ (∀ s ∈ o3.toList, s = "Unclosed brace")
        ∧ (∀ s ∈ o4.toList, s = "Empty citation")
        ∧ (∀ s ∈ o5.toList, s = "Empty reference") := by
  constructor
  · have h := List.length_filterMap_le
      (fun check => check content.toList) LATEX_ERROR_PATTERNS
    simpa [checkSyntaxErrors, LATEX_ERROR_PATTERNS] using h
  · refine ⟨(findUnclosedEnv content.toList).map
        (fun n => "Unclosed environment: " ++ n.asString),
      if findUnclosedMath content.toList then some "Unclosed math mode" else none,
      if findUnclosedBrace content.toList then some "Unclosed brace" else none,
      if findEmptyCmd "\\cite\x7b".toList content.toList then some "Empty citation" else none,
      if findEmptyCmd "\\ref\x7b".toList content.toList then some "Empty reference" else none,
      ?_, ?_, ?_, ?_, ?_, ?_⟩
    · show List.filterMap _ (_ :: _ :: _ :: _ :: _ :: []) = _
      rw [filterMap_cons_toList, filterMap_cons_toList, filterMap_cons_toList,
        filterMap_cons_toList, filterMap_cons_toList]
      simp
    · cases h : findUnclosedEnv content.toList <;> simp [h]
    · by_cases h : findUnclosedMath content.toList <;> simp [h]
    · by_cases h : findUnclosedBrace content.toList <;> simp [h]
    · by_cases h : findEmptyCmd "\\cite\x7b".toList content.toList <;> simp [h]
    · by_cases h : findEmptyCmd "\\ref\x7b".toList content.toList <;> simp [h]

/-- Truthiness-gated optional part in match form. -/
theorem truthy_part_eq (o : Option String) (pre post : String) :
    (if truthy o then [pre ++ o.getD "" ++ post] else [])
      = match o with
        | some s => if s = "" then [] else [pre ++ s ++ post]
        | none => [] := by
  cases o with
  | none => rfl
  | some s => by_cases h : s = "" <;> simp [truthy, h]

/-- Truthiness-gated abstract part in match form. -/
theorem truthy_abstract_eq (o : Option String) :
    (if truthy o then
        ["abstract = \x7b" ++ ((o.getD "").toList.take 500).asString ++ "\x7d"]
      else [])
      = match o with
        | some a => if a = "" then []
            else ["abstract = \x7b" ++ (a.toList.take 500).asString ++ "\x7d"]
        | none => [] := by
  cases o with
  | none => rfl
  | some a => by_cases h : a = "" <;> simp [truthy, h]

/-- Guarding an intercalation against the empty list is redundant. -/
theorem intercalate_if_ne (sep : String) (parts : List String) :
    (if parts ≠ [] then String.intercalate sep parts else "")
      = String.intercalate sep parts := by
  cases parts with
  | nil => simp [String.intercalate]
  | cons a l => simp

/-- C8 (amended): `format_bibtex` renders one BibTeX stanza with the
declared entry type and key, the author names joined by " and ", the
title and year verbatim, and optional doi, url and 500-character
truncated abstract fields, each exactly when that field is present and
non-empty. -/
theorem formatBibtex_spec (c : Citation) :
    formatBibtex c =
      "@" ++ c.type ++ "\x7b" ++ c.key ++ ",\n  author = \x7b"
        ++ String.intercalate " and " c.authors ++ "\x7d,\n  title = \x7b" ++ c.title
        ++ "\x7d,\n  year = \x7b" ++ c.year ++ "\x7d,\n  "
        ++ String.intercalate ",\n  "
            ((match c.doi with
              | some d => if d = "" then [] else ["doi = \x7b" ++ d ++ "\x7d"]
              | none => [])
            ++ (match c.url with
              | some u => if u = "" then [] else ["url = \x7b" ++ u ++ "\x7d"]
              | none => [])
            ++ (match c.abstract with
              | some a => if a = "" then []
                  else ["abstract = \x7b" ++ (a.toList.take 500).asString ++ "\x7d"]
              | none => []))
        ++ "\n\x7d" := by
  simp only [formatBibtex]
  rw [truthy_part_eq, truthy_part_eq, truthy_abstract_eq, intercalate_if_ne]

/-- Counterexample for C8 as stated: a citation whose abstract is
present but empty produces a stanza with no abstract field at all
(Python truthiness drops it), although the claim asks for an abstract
field whenever an abstract is present. -/
theorem formatBibtex_counterexample :
    (⟨"k", "article", "T", ["A"], "2020", "S", none, none, some ""⟩ : Citation).abstract
        = some ""
    ∧ containsStr
        (formatBibtex ⟨"k", "article", "T", ["A"], "2020", "S", none, none, some ""⟩)
        "abstract" = false := by
  exact ⟨rfl, by decide⟩

/-- Unfolding: a successful attempt returns at once. -/
theorem completeGo_ok {oracle : CompletionOracle} {fuel attempt : Nat} {delay : ℚ}
    {lastError : Option LLMFailure} {sleeps : List ℚ} {c : String}
    (h : oracle attempt = .ok c) :
    completeGo oracle (fuel + 1) attempt delay lastError sleeps
      = ⟨.ok c, attempt + 1, sleeps⟩ := by
  simp [completeGo, h]

/-- Unfolding: a rate-limit classification sleeps and retries. -/
theorem completeGo_rate {oracle : CompletionOracle} {fuel attempt : Nat} {delay : ℚ}
    {lastError : Option LLMFailure} {sleeps : List ℚ} {e : ProviderError} {ra : Option ℚ}
    (h : oracle attempt = .error e) (hc : classifyError e = .rateLimitError ra) :
    completeGo oracle (fuel + 1) attempt delay lastError sleeps
      = completeGo oracle fuel (attempt + 1) (delay * RETRY_MULTIPLIER)
          (some (.rateLimitError ra)) (sleeps ++ [rateWait ra delay]) := by
  simp [completeGo, h, hc]

/-- Unfolding: a network classification sleeps and retries while
attempts remain. -/
theorem completeGo_net_retry {oracle : CompletionOracle} {fuel attempt : Nat} {delay : ℚ}
    {lastError : Option LLMFailure} {sleeps : List ℚ} {e : ProviderError} {m : String}
    (h : oracle attempt = .error e) (hc : classifyError e = .networkError m)
    (hb : attempt + 1 < MAX_RETRIES) :
    completeGo oracle (fuel + 1) attempt delay lastError sleeps
      = completeGo oracle fuel (attempt + 1) (delay * RETRY_MULTIPLIER)
          (some (.networkError m)) (sleeps ++ [delay]) := by
  simp [completeGo, h, hc, hb]

/-- Unfolding: a network classification on the final attempt is
raised. -/
theorem completeGo_net_stop {oracle : CompletionOracle} {fuel attempt : Nat} {delay : ℚ}
    {lastError : Option LLMFailure} {sleeps : List ℚ} {e : ProviderError} {m : String}
    (h : oracle attempt = .error e) (hc : classifyError e = .networkError m)
    (hb : ¬attempt + 1 < MAX_RETRIES) :
    completeGo oracle (fuel + 1) attempt delay lastError sleeps
      = ⟨.error (.networkError m), attempt + 1, sleeps⟩ := by
  simp [completeGo, h, hc, hb]

/-- Unfolding: an authentication classification is raised at once. -/
theorem completeGo_auth {oracle : CompletionOracle} {fuel attempt : Nat} {delay : ℚ}
    {lastError : Option LLMFailure} {sleeps : List ℚ} {e : ProviderError} {p : String}
    (h : oracle attempt = .error e) (hc : classifyError e = .authenticationError p) :
    completeGo oracle (fuel + 1) attempt delay lastError sleeps
      = ⟨.error (.authenticationError p), attempt + 1, sleeps⟩ := by
  simp [completeGo, h, hc]

/-- Unfolding: a generic classification is raised at once. -/
theorem completeGo_generic {oracle : CompletionOracle} {fuel attempt : Nat} {delay : ℚ}
    {lastError : Option LLMFailure} {sleeps : List ℚ} {e : ProviderError} {m : String}
    (h : oracle attempt = .error e) (hc : classifyError e = .llmError m) :
    completeGo oracle (fuel + 1) attempt delay lastError sleeps
      = ⟨.error (.llmError m), attempt + 1, sleeps⟩ := by
  simp [completeGo, h, hc]

/-- The retry loop makes at most `attempt + fuel` total attempts. -/
theorem completeGo_attempts_le (oracle : CompletionOracle) :
    ∀ (fuel attempt : Nat) (delay : ℚ) (lastError : Option LLMFailure) (sleeps : List ℚ),
      (completeGo oracle fuel attempt delay lastError sleeps).attempts ≤ attempt + fuel := by
  intro fuel
  induction fuel with
  | zero => intro attempt delay lastError sleeps; simp [completeGo]
  | succ n ih =>
    intro attempt delay lastError sleeps
    cases h : oracle attempt with
    | ok c =>
      rw [completeGo_ok h]
      show attempt + 1 ≤ attempt + (n + 1)
      omega
    | error e =>
      cases hc : classifyError e with
      | rateLimitError ra =>
        rw [completeGo_rate h hc]
        have := ih (attempt + 1) (delay * RETRY_MULTIPLIER)
          (some (.rateLimitError ra)) (sleeps ++ [rateWait ra delay])
        omega
      | networkError m =>
        by_cases hb : attempt + 1 < MAX_RETRIES
        · rw [completeGo_net_retry h hc hb]
          have := ih (attempt + 1) (delay * RETRY_MULTIPLIER)
            (some (.networkError m)) (sleeps ++ [delay])
          omega
        · rw [completeGo_net_stop h hc hb]
          show attempt + 1 ≤ attempt + (n + 1)
          omega
      | authenticationError p =>
        rw [completeGo_auth h hc]
        show attempt + 1 ≤ attempt + (n + 1)
        omega
      | llmError m =>
        rw [completeGo_generic h hc]
        show attempt + 1 ≤ attempt + (n + 1)
        omega

/-- Every attempt that is followed by a further attempt raised an error
classified as retriable (rate limit or network). -/
theorem completeGo_retried_retriable (oracle : CompletionOracle) :
    ∀ (fuel attempt : Nat) (delay : ℚ) (lastError : Option LLMFailure) (sleeps : List ℚ)
      (k : Nat) (e : ProviderError),
      attempt ≤ k → oracle k = .error e →
      k + 1 < (completeGo oracle fuel attempt delay lastError sleeps).attempts →
      (classifyError e).isRetriable = true := by
  intro fuel
  induction fuel with
  | zero =>
    intro attempt delay lastError sleeps k e hak _ hlt
    simp [completeGo] at hlt
    omega
  | succ n ih =>
    intro attempt delay lastError sleeps k e hak hke hlt
    cases h : oracle attempt with
    | ok c =>
      rw [completeGo_ok h] at hlt
      exact absurd hlt (by show ¬k + 1 < attempt + 1; omega)
    | error e2 =>
      rcases Nat.eq_or_lt_of_le hak with heq | hgt
      · subst heq
        have h' := h
        rw [hke] at h'
        have he : e2 = e := (Except.error.inj h').symm
        subst he
        cases hc : classifyError e2 with
        | rateLimitError ra => simp [LLMFailure.isRetriable, hc]
        | networkError m => simp [LLMFailure.isRetriable, hc]
        | authenticationError p =>
          rw [completeGo_auth h hc] at hlt
          exact absurd hlt (by show ¬attempt + 1 < attempt + 1; omega)
        | llmError m =>
          rw [completeGo_generic h hc] at hlt
          exact absurd hlt (by show ¬attempt + 1 < attempt + 1; omega)
      · cases hc : classifyError e2 with
        | rateLimitError ra =>
          rw [completeGo_rate h hc] at hlt
          exact ih (attempt + 1) _ _ _ k e hgt hke hlt
        | networkError m =>
          by_cases hb : attempt + 1 < MAX_RETRIES
          · rw [completeGo_net_retry h hc hb] at hlt
            exact ih (attempt + 1) _ _ _ k e hgt hke hlt
          · rw [completeGo_net_stop h hc hb] at hlt
            exact absurd hlt (by show ¬k + 1 < attempt + 1; omega)
        | authenticationError p =>
          rw [completeGo_auth h hc] at hlt
          exact absurd hlt (by show ¬k + 1 < attempt + 1; omega)
        | llmError m =>
          rw [completeGo_generic h hc] at hlt
          exact absurd hlt (by show ¬k + 1 < attempt + 1; omega)

/-- C3: when the underlying completion call raises an error classified
as authentication or as an unclassified generic failure, `complete`
raises that classified error after exactly one attempt with no sleeps;
in total never more than `MAX_RETRIES = 3` attempts are made, and only
rate-limit or network classifications are ever retried. -/
theorem llmComplete_failFast (oracle : CompletionOracle) (e : ProviderError)
    (h1 : oracle 0 = .error e)
    (h2 : (classifyError e).isFailFast = true) :
    llmComplete oracle = ⟨.error (classifyError e), 1, []⟩
    ∧ (∀ g : CompletionOracle, (llmComplete g).attempts ≤ MAX_RETRIES)
    ∧ (∀ (g : CompletionOracle) (k : Nat) (e2 : ProviderError),
        g k = .error e2 → k + 1 < (llmComplete g).attempts →
        (classifyError e2).isRetriable = true) := by
  refine ⟨?_, ?_, ?_⟩
  · show completeGo oracle (2 + 1) 0 RETRY_DELAY none [] = _
    cases hc : classifyError e with
    | rateLimitError ra => rw [hc] at h2; simp [LLMFailure.isFailFast] at h2
    | networkError m => rw [hc] at h2; simp [LLMFailure.isFailFast] at h2
    | authenticationError p => rw [completeGo_auth h1 hc]
    | llmError m => rw [completeGo_generic h1 hc]
  · intro g
    have h := completeGo_attempts_le g MAX_RETRIES 0 RETRY_DELAY none []
    simpa [llmComplete] using h
  · intro g k e2 hke hlt
    exact completeGo_retried_retriable g MAX_RETRIES 0 RETRY_DELAY none [] k e2
      (Nat.zero_le k) hke hlt

/-- Witness for C3: a call whose first attempt raises an api-key error
(classified authentication) surfaces it after one attempt and no
sleeps. -/
theorem llmComplete_failFast_witness :
    llmComplete (fun _ => .error ⟨"Invalid API key provided", false, none⟩)
      = ⟨.error (.authenticationError "unknown"), 1, []⟩ := by
  have h := llmComplete_failFast
    (fun _ => .error ⟨"Invalid API key provided", false, none⟩)
    ⟨"Invalid API key provided", false, none⟩ rfl (by decide)
  exact h.1.trans (by decide)

/-- The `_extract_search_query` loop agrees with a `findSome?` over the
pattern list that skips matches with an empty stripped suffix. -/
theorem extractQueryGo_eq_findSome (orig lowered : List Char) :
    ∀ pats : List Pat,
      extractQueryGo orig lowered pats
        = (pats.findSome? (fun p =>
            (searchEnd p lowered).bind (fun e =>
              let after := strip (orig.drop e)
              if after ≠ [] then some after else none))).map (fun a => a.take 200)
  | [] => by simp [extractQueryGo]
  | p :: ps => by
    rw [List.findSome?_cons]
    cases h : searchEnd p lowered with
    | none =>
      simp only [extractQueryGo, h, Option.bind]
      exact extractQueryGo_eq_findSome orig lowered ps
    | some e =>
      by_cases ha : strip (orig.drop e) = []
      · simp only [extractQueryGo, h, Option.some_bind, ha]
        simp only [ne_eq, not_true_eq_false, if_false]
        exact extractQueryGo_eq_findSome orig lowered ps
      · simp only [extractQueryGo, h, Option.some_bind]
        simp [ha]

/-- The embedded extraction equals the amended-claim description. -/
theorem extractSearchQuery_eq_amended (message : String) :
    extractSearchQuery message = amendedPendingSearch message := by
  unfold extractSearchQuery amendedPendingSearch
  dsimp only
  rw [extractQueryGo_eq_findSome]
  cases List.findSome? _ HANDOFF_PATTERNS <;> simp

/-- C1 (amended): the route phase decides the active agent from the
most recent message only — a non-user last message or a user message
matching no handoff pattern selects the dialogue agent; a user message
matching a handoff pattern (case-insensitively) selects the search
agent, with `pending_search` set to the trimmed text following the
match of the first pattern whose match leaves a non-empty suffix,
capped at 200 characters, or to the whole message capped at 200
characters when no pattern match leaves a suffix. -/
theorem routeNode_spec (st : OrchestratorState) (m : Msg)
    (hlast : st.messages.getLast? = some m) :
    (m.role ≠ "user" → routeNode st = ⟨"theoretikos", none⟩)
    ∧ (m.role = "user" → handoffMatches m.content = true →
        routeNode st = ⟨"bibliographos", some (amendedPendingSearch m.content)⟩)
    ∧ (m.role = "user" → handoffMatches m.content = false →
        routeNode st = ⟨"theoretikos", none⟩) := by
  have hstep : routeNode st
      = if m.role ≠ "user" then ⟨"theoretikos", none⟩
        else if handoffMatches m.content then
          ⟨"bibliographos", some (extractSearchQuery m.content)⟩
        else ⟨"theoretikos", none⟩ := by
    unfold routeNode
    rw [hlast]
  refine ⟨?_, ?_, ?_⟩
  · intro h
    rw [hstep, if_pos h]
  · intro hrole hmatch
    rw [hstep, if_neg (by simp [hrole]), if_pos hmatch, extractSearchQuery_eq_amended]
  · intro hrole hmatch
    rw [hstep, if_neg (by simp [hrole]), if_neg (by simp [hmatch])]

/-- Witness for C1 (amended) at the spec example message. -/
theorem routeNode_spec_witness :
    handoffMatches "Can you find sources for climate policy?" = true
    ∧ routeNode { defaultOrchestratorState with
        messages := [⟨"user", "Can you find sources for climate policy?"⟩] }
      = ⟨"bibliographos", some "climate policy?"⟩ := by
  have h := (routeNode_spec
    { defaultOrchestratorState with
      messages := [⟨"user", "Can you find sources for climate policy?"⟩] }
    ⟨"user", "Can you find sources for climate policy?"⟩ rfl).2.1 rfl (by decide)
  exact ⟨by decide, h.trans (by decide)⟩

/-- Counterexample for C1 as stated: on the user message
"find papers about evidence on" the first matching pattern (pattern 3,
ending at the end of the message) leaves an empty suffix, so the claim
prescribes the whole message as `pending_search`; the code instead
falls through to pattern 4 and derives "about evidence on". -/
theorem routeNode_counterexample :
    routeNode { defaultOrchestratorState with
        messages := [⟨"user", "find papers about evidence on"⟩] }
      = ⟨"bibliographos", some "about evidence on"⟩
    ∧ claimFirstMatchPending "find papers about evidence on"
        = "find papers about evidence on"
    ∧ ("about evidence on" : String) ≠ "find papers about evidence on" := by
  refine ⟨by decide, by decide, by decide⟩

/-- The delegated user input of the dialogue node when the last message
is a user turn and pending search results exist. -/
theorem theoretikosDelegatedInput_eq (st : OrchestratorState) (m : Msg)
    (hlast : st.messages.getLast? = some m) (hrole : m.role = "user")
    (hres : st.search_results ≠ []) :
    theoretikosDelegatedInput st
      = some (m.content ++ contextHeader
          ++ String.intercalate "\n" st.search_results) := by
  have hstep : theoretikosDelegatedInput st
      = if m.role ≠ "user" then none
        else if st.search_results ≠ [] then
          some (m.content ++ contextHeader
            ++ String.intercalate "\n" st.search_results)
        else some m.content := by
    unfold theoretikosDelegatedInput
    rw [hlast]
  rw [hstep, if_neg (by simp [hrole]), if_pos hres]

/-- After the dialogue node ran on a user turn with pending search
results, the merged state has empty `search_results` (the in-place
clear survives both merge branches). -/
theorem theoretikosNodeRun_clears (chatFn : String → DialogueState → DialogueState)
    (st : OrchestratorState) (m : Msg)
    (hlast : st.messages.getLast? = some m) (hrole : m.role = "user")
    (hres : st.search_results ≠ []) :
    (theoretikosNodeRun chatFn st).search_results = [] := by
  have hdel := theoretikosDelegatedInput_eq st m hlast hrole hres
  unfold theoretikosNodeRun
  rw [hdel]
  dsimp only
  rw [if_pos hres]
  cases (chatFn (m.content ++ contextHeader
      ++ String.intercalate "\n" st.search_results) st.dialogue_state).messages.getLast? <;>
    simp

/-- C2 (amended): when a non-handoff user turn reaches the dialogue
node with non-empty `search_results`, the user turn delegated to the
Dialogue Agent's chat is the turn with the pending search-result
context appended after it (not prefixed before it), and the state
returned by `Orchestrator.chat` has `search_results` cleared. -/
theorem dialogue_context_and_clear
    (chatFn : String → DialogueState → DialogueState)
    (searchFn : String → SearchState → SearchState)
    (userInput : String) (st : OrchestratorState)
    (hmatch : handoffMatches userInput = false)
    (hres : st.search_results ≠ []) :
    theoretikosDelegatedInput
        { st with messages := st.messages ++ [⟨"user", userInput⟩] }
      = some (userInput ++ contextHeader
          ++ String.intercalate "\n" st.search_results)
    ∧ (orchestratorChat chatFn searchFn userInput st).search_results = [] := by
  have hlast1 : (st.messages ++ [(⟨"user", userInput⟩ : Msg)]).getLast?
      = some ⟨"user", userInput⟩ := List.getLast?_concat _
  have hroute : routeNode { st with messages := st.messages ++ [⟨"user", userInput⟩] }
      = ⟨"theoretikos", none⟩ := by
    have hstep : routeNode { st with messages := st.messages ++ [⟨"user", userInput⟩] }
        = if ("user" : String) ≠ "user" then ⟨"theoretikos", none⟩
          else if handoffMatches userInput then
            ⟨"bibliographos", some (extractSearchQuery userInput)⟩
          else ⟨"theoretikos", none⟩ := by
      unfold routeNode
      rw [hlast1]
    rw [hstep, if_neg (by simp), if_neg (by simp [hmatch])]
  constructor
  · exact theoretikosDelegatedInput_eq _ ⟨"user", userInput⟩ hlast1 rfl hres
  · unfold orchestratorChat
    dsimp only
    rw [hroute]
    dsimp only
    have hdr : decideRoute
        { st with
          messages := st.messages ++ [⟨"user", userInput⟩],
          active_agent := "theoretikos",
          pending_search := st.pending_search }
        = "theoretikos" := by
      simp [decideRoute]
    rw [hdr]
    exact theoretikosNodeRun_clears chatFn _ ⟨"user", userInput⟩ hlast1 rfl hres

/-- Witness for C2 (amended) at a concrete state holding one pending
search result. -/
theorem dialogue_context_and_clear_witness :
    theoretikosDelegatedInput
        { defaultOrchestratorState with
          messages := [⟨"user", "hello"⟩], search_results := ["srcA"] }
      = some "hello\n\n[Available sources from literature search]:\nsrcA"
    ∧ (orchestratorChat (fun _ ds => ds) (fun _ ss => ss) "hello"
        { defaultOrchestratorState with search_results := ["srcA"] }).search_results
      = [] := by
  have h := dialogue_context_and_clear (fun _ ds => ds) (fun _ ss => ss) "hello"
    { defaultOrchestratorState with search_results := ["srcA"] }
    (by decide) (by decide)
  exact ⟨h.1.trans (by decide), h.2⟩

/-- Counterexample for C2 as stated: the delegated input starts with
the user turn and carries the search-result context at its end — the
user turn is not prefixed with the context, as witnessed by the prefix
tests on the concrete delegated string. -/
theorem dialogue_context_counterexample :
    theoretikosDelegatedInput
        { defaultOrchestratorState with
          messages := [⟨"user", "hello"⟩], search_results := ["srcA"] }
      = some "hello\n\n[Available sources from literature search]:\nsrcA"
    ∧ List.isPrefixOf "hello".toList
        "hello\n\n[Available sources from literature search]:\nsrcA".toList = true
    ∧ List.isPrefixOf "srcA".toList
        "hello\n\n[Available sources from literature search]:\nsrcA".toList = false
    ∧ List.isPrefixOf "[Available sources from literature search]:\nsrcA".toList
        "hello\n\n[Available sources from literature search]:\nsrcA".toList = false := by
  refine ⟨by decide, by decide, by decide, by decide⟩

end Theoria
